import Mathlib

/-!
# Verification of the Mode Simulation & Device-Control Engine (`app.py`)

Shallow embedding of the control process of the neopixel teaching rig:
the shared state record, the operator-facing route handlers, the mode-2
transition protocol, the color classifier, and the decay-simulator loop.

Modelling conventions:
* Python's shared `state` dict becomes the structure `SimState`; each
  handler becomes a function `SimState → SimState × List Ev` (or drops the
  unused part of that signature when the source neither reads nor writes
  the state).
* Side effects are events: `Ev.cmd c` is a `send_arduino(c)` call (the
  decision to send; with no serial device the write degrades to a no-op
  downstream, which no claim here is about), `Ev.buzz d` is a GPIO buzzer
  pulse held for `d` hundredths of a time-unit, and `Ev.sleep d` is a
  `time.sleep` of `d` hundredths of a time-unit.
* Python floats are modelled by exact arithmetic.  The decay remaining
  count `int(43 * pow(0.5, elapsed / t_half))` with `elapsed = 0.5*j` is
  the exact floor of `43 * 2 ^ (-(j / (2*t_half)))`, which for `t_half ≥ 1`
  equals the greatest `n ≤ 43` with `n ^ (2*t_half) * 2 ^ j ≤ 43 ^ (2*t_half)`
  (raise both sides of `n * 2 ^ (j/(2t)) ≤ 43` to the power `2t`); this is
  `remExact`.  Division by a zero half-life, a Python `ZeroDivisionError`
  that kills the decay thread, is modelled by the `crashed` flag.
* Euclidean color distance: the source compares `math.sqrt` values against
  each other and against the constants `100000` (initial best) and `120`
  (threshold).  Squaring, an order isomorphism on nonnegative reals, gives
  the integer comparisons used here: squared distances against `10^10`
  and `14400`.
* The random stream of `random.randint(0, 10)` draws is an explicit
  function `rnd : ℕ → ℕ` consumed at successive indices.
-/

/-- The shared mutable `state` dict of `app.py` (its fields, with Python
floats as rationals). -/
structure SimState where
  mode : ℕ
  mode2_demo : Bool
  mode2_base : String
  temp : ℚ
  solar : ℕ
  color : String
  photo_current : ℚ
  decay_count : ℕ
  decay_halflife : ℕ
  decay_running : Bool
deriving DecidableEq

/-- The initial `state` literal of `app.py`. -/
def initState : SimState :=
  { mode := 1
    mode2_demo := true
    mode2_base := "Hydrogen"
    temp := 0
    solar := 0
    color := "None"
    photo_current := 0
    decay_count := 43
    decay_halflife := 10
    decay_running := false }

/-- An observable side effect: an Arduino command line, a buzzer pulse, or a
sleep.  Durations are in hundredths of a time-unit (so `sleep 50` is
`time.sleep(0.5)`). -/
inductive Ev where
  | cmd : String → Ev
  | buzz : ℕ → Ev
  | sleep : ℕ → Ev
deriving DecidableEq

/-- The fixed `ELEMENTS` table of `app.py` (Python dict with unique keys,
modelled as an association list in source order). -/
def ELEMENTS : List (String × String) :=
  [("Hydrogen", "1,0,0,0"), ("Helium", "2,0,0,0"), ("Lithium", "2,1,0,0"),
   ("Beryllium", "2,2,0,0"), ("Boron", "2,3,0,0"), ("Carbon", "2,4,0,0"),
   ("Nitrogen", "2,5,0,0"), ("Oxygen", "2,6,0,0"), ("Fluorine", "2,7,0,0"),
   ("Neon", "2,8,0,0"), ("Sodium", "2,8,1,0"), ("Magnesium", "2,8,2,0"),
   ("Aluminum", "2,8,3,0"), ("Silicon", "2,8,4,0"), ("Phosphorus", "2,8,5,0"),
   ("Sulfur", "2,8,6,0"), ("Chlorine", "2,8,7,0"), ("Argon", "2,8,8,0")]

/-- Python dict lookup `ELEMENTS[k]` / membership `k in ELEMENTS`. -/
def elemLookup (k : String) : Option String :=
  (ELEMENTS.find? (fun p => p.1 == k)).map Prod.snd

/-- A calibration entry of `color_card.json`: `{name, rgb}`. -/
structure ColorEntry where
  name : String
  rgb : ℤ × ℤ × ℤ
deriving DecidableEq

/-- Squared Euclidean distance in RGB space (`dist**2` of
`get_closest_color`; the source takes `math.sqrt`, dropped here in favor of
comparing squares — see the file header). -/
def distSq (r g b : ℤ) (c : ColorEntry) : ℤ :=
  (r - c.rgb.1) ^ 2 + (g - c.rgb.2.1) ^ 2 + (b - c.rgb.2.2) ^ 2

/-- One iteration of the `for c in known_colors` loop of
`get_closest_color`, carried over the `(best_name, min_dist)` pair. -/
def gccStep (r g b : ℤ) (acc : String × ℤ) (c : ColorEntry) : String × ℤ :=
  if distSq r g b c < acc.2 then (c.name, distSq r g b c) else acc

/-- Function `get_closest_color(r, g, b)` over a calibration table `cols`
(`known_colors`): fold the update step from `("None", 100000²)` and apply
the `min_dist > 120` (squared: `14400`) threshold. -/
def get_closest_color (cols : List ColorEntry) (r g b : ℤ) : String :=
  let best := cols.foldl (gccStep r g b) ("None", 10 ^ 10)
  if best.2 > 14400 then "None" else best.1

/-- The minimal squared distance tracked by `get_closest_color`, seeded with
the source's initial `min_dist` (squared). -/
def minDistSq (cols : List ColorEntry) (r g b : ℤ) : ℤ :=
  cols.foldl (fun d c => min d (distSq r g b c)) (10 ^ 10)

/-- The decay-display shell fill of `decay_logic` (lines `k = min(rem, 2)`
through `n = min(rem, 16)`): caps K:2, L:8, M:12, N:16, filled
inner-to-outer. -/
def configurationFor (count : ℕ) : ℕ × ℕ × ℕ × ℕ :=
  let k := min count 2
  let rem1 := count - k
  let l := min rem1 8
  let rem2 := rem1 - l
  let m := min rem2 12
  let rem3 := rem2 - m
  let n := min rem3 16
  (k, l, m, n)

/-- Sum of the four components of a shell configuration. -/
def confSum (c : ℕ × ℕ × ℕ × ℕ) : ℕ :=
  c.1 + c.2.1 + c.2.2.1 + c.2.2.2

/-- The `send_arduino(f"CONF:{k},{l},{m},{n}")` of the decay loop. -/
def confCmd (count : ℕ) : Ev :=
  let c := configurationFor count
  Ev.cmd ("CONF:" ++ toString c.1 ++ "," ++ toString c.2.1 ++ ","
    ++ toString c.2.2.1 ++ "," ++ toString c.2.2.2)

/-- Function `process_transition(color)`: the mode-2 excitation/de-excitation
protocol.  Reads only `state["mode2_base"]`; mutates nothing. -/
def process_transition (s : SimState) (color : String) : List Ev :=
  if color = "White" then
    [Ev.cmd "FLASH:255,255,255", Ev.sleep 50,
     Ev.cmd ("CONF:" ++ (elemLookup s.mode2_base).getD "1,0,0,0")]
  else if color = "Red" then [Ev.cmd "CONF:0,1,0,0"]
  else if color = "Blue" then [Ev.cmd "CONF:0,0,1,0"]
  else if color = "Violet" then [Ev.cmd "CONF:0,0,0,1"]
  else []

/-- The three reset commands emitted unconditionally by `set_mode`. -/
def resetSeq : List Ev :=
  [Ev.cmd "MODE:NORMAL", Ev.cmd "SPEED:1.0", Ev.cmd "COLOR:0,255,255"]

/-- Route handler `set_mode(m)` (`/set_mode/<int:m>`; the Flask `int`
converter accepts every non-negative integer, hence `m : ℕ`). -/
def set_mode (m : ℕ) (s : SimState) : SimState × List Ev :=
  let s1 := { s with mode := m, decay_running := false }
  let tr := resetSeq
    ++ (if m = 6 then [Ev.cmd "MODE:RADIO_ON", Ev.cmd "CONF:2,8,8,16"] else [])
    ++ (if m = 5 then [Ev.cmd "MODE:BAND_ON"] else [])
    ++ (if m = 2 then
          [Ev.cmd ("CONF:" ++ (elemLookup s.mode2_base).getD "1,0,0,0")]
        else [])
  (s1, tr)

/-- Route handler `set_mode2_type(type)`. -/
def set_mode2_type (ty : String) (s : SimState) : SimState :=
  { s with mode2_demo := ty == "demo" }

/-- Route handler `set_mode2_base(elem)`: store the base, and re-apply it
immediately when mode 2 is active (with the `.get(elem, "1,0,0,0")`
fallback). -/
def set_mode2_base (elem : String) (s : SimState) : SimState × List Ev :=
  ({ s with mode2_base := elem },
   if s.mode = 2 then [Ev.cmd ("CONF:" ++ (elemLookup elem).getD "1,0,0,0")]
   else [])

/-- Route handler `mode2_sim(color)`. -/
def mode2_sim (color : String) (s : SimState) : List Ev :=
  if s.mode = 2 then process_transition s color else []

/-- Route handler `load_element(element)`: `if element in ELEMENTS:` send
its configuration, else do nothing. -/
def load_element (element : String) : List Ev :=
  match elemLookup element with
  | some conf => [Ev.cmd ("CONF:" ++ conf)]
  | none => []

/-- Route handler `set_halflife(val)` (`<int:val>`, any non-negative
integer). -/
def set_halflife (v : ℕ) (s : SimState) : SimState :=
  { s with decay_halflife := v }

/-- Route handler `start_decay()`. -/
def start_decay (s : SimState) : SimState :=
  { s with decay_running := true }

/-- Exact remaining count after tick `j` of a run with half-life `t ≥ 1`:
the floor of `43 * 0.5 ^ ((0.5*j) / t)`, characterized without real
exponentials as the greatest `n ≤ 43` with `n ^ (2*t) * 2 ^ j ≤ 43 ^ (2*t)`
(see the file header). -/
def remExact (t j : ℕ) : ℕ :=
  Nat.findGreatest (fun n => n ^ (2 * t) * 2 ^ j ≤ 43 ^ (2 * t)) 43

/-- The `for _ in range(events)` emission loop of `decay_logic`: `k`
successive draws `rnd ri, rnd (ri+1), …`; a draw `> 7` is an ALPHA
(`DECAY:ALPHA`, buzzer held 0.05), otherwise a BETA (`DECAY:BETA`,
buzzer held 0.01). -/
def decayEventsAux (rnd : ℕ → ℕ) (ri : ℕ) : ℕ → List Ev
  | 0 => []
  | k + 1 =>
    (if 7 < rnd ri then [Ev.cmd "DECAY:ALPHA", Ev.buzz 5]
     else [Ev.cmd "DECAY:BETA", Ev.buzz 1])
    ++ decayEventsAux rnd (ri + 1) k

/-- The decay-event block of a tick: `events = min(lost, 2)` emissions. -/
def decayEvents (lost : ℕ) (rnd : ℕ → ℕ) (ri : ℕ) : List Ev :=
  decayEventsAux rnd ri (min lost 2)

/-- Result of one body iteration of the inner decay `while` loop. -/
structure TickOut where
  count : ℕ
  trace : List Ev
  crashed : Bool
  drawsUsed : ℕ
deriving DecidableEq

/-- One iteration of the inner `while` body of `decay_logic`, with the
half-life `t` captured at run entry, tick index `j` (the tick computes
`elapsed = 0.5*(j+1)`), and previous count `c`: sleep 0.5, recompute the
remaining count, emit `min(lost, 2)` decay events, re-render `CONF:`.
With `t = 0` the division `elapsed / t_half` raises `ZeroDivisionError`
after the sleep (`crashed`). -/
def decayTick (t j c : ℕ) (rnd : ℕ → ℕ) (ri : ℕ) : TickOut :=
  if t = 0 then ⟨c, [Ev.sleep 50], true, 0⟩
  else
    let rem := remExact t (j + 1)
    let lost := c - rem
    ⟨rem, Ev.sleep 50 :: (decayEvents lost rnd ri ++ [confCmd rem]), false,
      min lost 2⟩

/-- Aggregate outcome of running the inner decay loop: final state, event
trace, per-tick `decay_count` trajectory, whether a `ZeroDivisionError`
escaped, and the next unread random-stream index. -/
structure RunResult where
  state : SimState
  trace : List Ev
  traj : List ℕ
  crashed : Bool
  ri : ℕ
deriving DecidableEq

/-- An interleaved operator `set_halflife(v)`: it writes only the
`decay_halflife` field of the shared state. -/
def applyUpd (u : Option ℕ) (s : SimState) : SimState :=
  match u with
  | some v => { s with decay_halflife := v }
  | none => s

/-- The inner `while state["decay_count"] > 0 and state["mode"] == 6 and
state["decay_running"]` loop of `decay_logic`, fuel-bounded.  `t` is the
local `t_half` read once at run entry; `upd j` models an operator
`set_halflife` landing right before tick `j` (the loop itself never reads
the shared `decay_halflife` field again). -/
def innerRunAux (t : ℕ) (upd : ℕ → Option ℕ) (rnd : ℕ → ℕ) :
    ℕ → ℕ → SimState → ℕ → RunResult
  | 0, _, s, ri => ⟨s, [], [], false, ri⟩
  | fuel + 1, j, s, ri =>
    if 0 < s.decay_count ∧ s.mode = 6 ∧ s.decay_running = true then
      let s1 := applyUpd (upd j) s
      let tk := decayTick t j s1.decay_count rnd ri
      if tk.crashed then ⟨s1, tk.trace, [], true, ri⟩
      else
        let s2 := { s1 with decay_count := tk.count }
        let r := innerRunAux t upd rnd fuel (j + 1) s2 (ri + tk.drawsUsed)
        ⟨r.state, tk.trace ++ r.trace, tk.count :: r.traj, r.crashed, r.ri⟩
    else ⟨s, [], [], false, ri⟩

/-- No operator interference. -/
def noUpdate : ℕ → Option ℕ := fun _ => none

/-- The inner decay loop without interference, from `elapsed = 0`. -/
def innerRun (fuel t : ℕ) (s : SimState) (rnd : ℕ → ℕ) : RunResult :=
  innerRunAux t noUpdate rnd fuel 0 s 0

/-- One iteration of the outer `while True` of `decay_logic`: when mode 6
is active and `decay_running` is set, capture `t_half`, reset
`decay_count` to `N0 = 43` and run the inner loop; otherwise sleep 0.5. -/
def decay_outer_body (fuel : ℕ) (s : SimState) (rnd : ℕ → ℕ) : RunResult :=
  if s.mode = 6 ∧ s.decay_running = true then
    innerRun fuel s.decay_halflife { s with decay_count := 43 } rnd
  else ⟨s, [Ev.sleep 50], [], false, 0⟩

/-- Is this event a `DECAY:` command? -/
def isDecayEv : Ev → Bool
  | Ev.cmd c => c == "DECAY:ALPHA" || c == "DECAY:BETA"
  | _ => false

/-- Is this event a `DECAY:ALPHA` command? -/
def isAlphaEv : Ev → Bool
  | Ev.cmd c => c == "DECAY:ALPHA"
  | _ => false

/-- Is this event a buzzer pulse? -/
def isBuzzEv : Ev → Bool
  | Ev.buzz _ => true
  | _ => false

/-- Number of `DECAY:` commands in a trace. -/
def countDecayCmds (l : List Ev) : ℕ := l.countP isDecayEv

/-- Number of `DECAY:ALPHA` commands in a trace. -/
def countAlphaCmds (l : List Ev) : ℕ := l.countP isAlphaEv

/-- Number of buzzer pulses in a trace. -/
def countBuzz (l : List Ev) : ℕ := l.countP isBuzzEv

/-- The probability that one emission draw is an ALPHA: the fraction of the
11 equally likely `random.randint(0, 10)` outcomes satisfying the source's
`> 7` test. -/
def alphaProb : ℚ :=
  (((Finset.range 11).filter (fun r => 7 < r)).card : ℚ) / 11

/-- The all-zeros random stream (every draw is a BETA). -/
def rndZero : ℕ → ℕ := fun _ => 0

/-- A state sitting in mode 6 with a started decay run. -/
def s6 : SimState :=
  { initState with mode := 6, decay_running := true, decay_halflife := 1 }


/-- Claim C2, counterexample: `configurationFor 43` sums to 38, not to
`min 43 43 = 43` — the display capacities only sum to 38. -/
theorem configurationFor_sum_cex :
    confSum (configurationFor 43) = 38
    ∧ ¬ confSum (configurationFor 43) = min 43 43 := by
  decide

/-- Claim C2 (amended): for every electron count `n ≤ 43` the four shells
of `configurationFor n` are filled strictly inner-to-outer with caps
K:2, L:8, M:12, N:16 and sum to `min n 38` (38 is the total capacity;
electrons beyond it are dropped); in particular
`configurationFor 5 = (2,3,0,0)` and `configurationFor 43 = (2,8,12,16)`. -/
theorem configurationFor_sum_min38 :
    (∀ n, n ≤ 43 → confSum (configurationFor n) = min n 38)
    ∧ configurationFor 5 = (2, 3, 0, 0)
    ∧ configurationFor 43 = (2, 8, 12, 16)
    ∧ (∀ n, n ≤ 43 →
        ((configurationFor n).1 < 2 → (configurationFor n).2.1 = 0)
        ∧ ((configurationFor n).2.1 < 8 → (configurationFor n).2.2.1 = 0)
        ∧ ((configurationFor n).2.2.1 < 12 → (configurationFor n).2.2.2 = 0)) := by
  refine ⟨by decide, by decide, by decide, by decide⟩

/-- Witness for C2 at `n = 40`. -/
theorem configurationFor_sum_min38_witness :
    confSum (configurationFor 40) = min 40 38 :=
  configurationFor_sum_min38.1 40 (by decide)

/-- Claim C3, counterexample: `process_transition` drives no buzzer at all —
feeding "White" (or "Red") produces zero buzzer pulses, contradicting the
claimed audible long (resp. short) cue. -/
theorem process_transition_no_buzz_cex :
    countBuzz (process_transition initState "White") = 0
    ∧ countBuzz (process_transition initState "Red") = 0 := by
  decide

/-- Claim C3 (amended): in mode 2, "White" emits exactly one `FLASH:`
command, then after the fixed 0.5 settle sleep exactly one `CONF:` for the
configured base element, independent of any prior excitation (the trace
depends only on `mode2_base`); "Red"/"Blue"/"Violet" emit exactly one
`CONF:` placing one electron in shell L/M/N with all other shells zero;
any other color emits nothing.  No audible cue is emitted. -/
theorem process_transition_traces : ∀ (s : SimState) (color : String),
    process_transition s "White" =
      [Ev.cmd "FLASH:255,255,255", Ev.sleep 50,
       Ev.cmd ("CONF:" ++ (elemLookup s.mode2_base).getD "1,0,0,0")]
    ∧ process_transition s "Red" = [Ev.cmd "CONF:0,1,0,0"]
    ∧ process_transition s "Blue" = [Ev.cmd "CONF:0,0,1,0"]
    ∧ process_transition s "Violet" = [Ev.cmd "CONF:0,0,0,1"]
    ∧ (color ≠ "White" → color ≠ "Red" → color ≠ "Blue" → color ≠ "Violet" →
        process_transition s color = []) := by
  intro s color
  refine ⟨by simp [process_transition], by simp [process_transition],
    by simp [process_transition], by simp [process_transition], ?_⟩
  intro h1 h2 h3 h4
  simp [process_transition, h1, h2, h3, h4]

/-- Witness for C3: the unknown color "Green" is a no-op. -/
theorem process_transition_traces_witness :
    process_transition initState "Green" = [] :=
  (process_transition_traces initState "Green").2.2.2.2
    (by decide) (by decide) (by decide) (by decide)

/-- Claim C4: `set_mode m` always forces `decay_running` to `false` and
emits `MODE:NORMAL`, `SPEED:1.0`, `COLOR:0,255,255` in that order before
any mode-specific commands; `m = 6` then adds `MODE:RADIO_ON` and
`CONF:2,8,8,16`, `m = 5` adds `MODE:BAND_ON`, and `m = 2` adds the `CONF:`
of the currently selected base element. -/
theorem set_mode_reset_then_specific : ∀ (m : ℕ) (s : SimState),
    (set_mode m s).1.decay_running = false
    ∧ (set_mode m s).2.take 3 = resetSeq
    ∧ (m = 6 → (set_mode m s).2
        = resetSeq ++ [Ev.cmd "MODE:RADIO_ON", Ev.cmd "CONF:2,8,8,16"])
    ∧ (m = 5 → (set_mode m s).2 = resetSeq ++ [Ev.cmd "MODE:BAND_ON"])
    ∧ (m = 2 → (set_mode m s).2 = resetSeq
        ++ [Ev.cmd ("CONF:" ++ (elemLookup s.mode2_base).getD "1,0,0,0")]) := by
  intro m s
  refine ⟨rfl, ?_, ?_, ?_, ?_⟩
  · show (resetSeq ++ _).take 3 = resetSeq
    rfl
  · intro h; subst h; rfl
  · intro h; subst h; rfl
  · intro h; subst h; rfl

/-- Witness for C4 at `m = 6`. -/
theorem set_mode_reset_witness :
    (set_mode 6 initState).1.decay_running = false
    ∧ (set_mode 6 initState).2
      = resetSeq ++ [Ev.cmd "MODE:RADIO_ON", Ev.cmd "CONF:2,8,8,16"] :=
  ⟨(set_mode_reset_then_specific 6 initState).1,
   (set_mode_reset_then_specific 6 initState).2.2.1 rfl⟩

/-- Claim C7, counterexample: `load_element` on the unknown name
"Unobtanium" emits nothing at all — it does not fall back to
`CONF:1,0,0,0` as claimed. -/
theorem load_element_unknown_cex :
    elemLookup "Unobtanium" = none
    ∧ load_element "Unobtanium" = []
    ∧ load_element "Unobtanium" ≠ [Ev.cmd "CONF:1,0,0,0"] := by
  decide

/-- Claim C7 (amended): for an element name outside the 18-element table,
`set_mode2_base` (with mode 2 active) and the transition-protocol base
lookup fall back to emitting the default `CONF:1,0,0,0`, while
`load_element` silently does nothing (emits no command at all). -/
theorem unknown_element_fallbacks : ∀ (elem : String) (s : SimState),
    elemLookup elem = none →
    load_element elem = []
    ∧ (s.mode = 2 → (set_mode2_base elem s).2 = [Ev.cmd "CONF:1,0,0,0"])
    ∧ process_transition { s with mode2_base := elem } "White"
      = [Ev.cmd "FLASH:255,255,255", Ev.sleep 50, Ev.cmd "CONF:1,0,0,0"] := by
  intro elem s h
  refine ⟨?_, ?_, ?_⟩
  · simp [load_element, h]
  · intro h2
    simp [set_mode2_base, h2, h]
  · simp [process_transition, h]

/-- Witness for C7 at "Unobtanium" in mode 2. -/
theorem unknown_element_fallbacks_witness :
    load_element "Unobtanium" = []
    ∧ (set_mode2_base "Unobtanium" { initState with mode := 2 }).2
      = [Ev.cmd "CONF:1,0,0,0"]
    ∧ process_transition
        { { initState with mode := 2 } with mode2_base := "Unobtanium" } "White"
      = [Ev.cmd "FLASH:255,255,255", Ev.sleep 50, Ev.cmd "CONF:1,0,0,0"] := by
  have h := unknown_element_fallbacks "Unobtanium"
    { initState with mode := 2 } (by decide)
  exact ⟨h.1, h.2.1 rfl, h.2.2⟩

/-- Claim C9, counterexample: `set_mode 7` stores mode 7, which is outside
{1..6} — the claimed invariant is not preserved by `set_mode`. -/
theorem set_mode_out_of_range_cex :
    (set_mode 7 initState).1.mode = 7
    ∧ ¬ (1 ≤ (set_mode 7 initState).1.mode
         ∧ (set_mode 7 initState).1.mode ≤ 6) := by
  decide

/-- Claim C9 (amended): every operator operation other than `set_mode`
leaves `mode` unchanged (and `load_element`/`mode2_sim` never touch the
state at all), while `set_mode m` stores exactly `m`; hence after
`set_mode m` the mode lies in {1..6} if and only if `m` does — the
invariant is preserved only for in-range requests. -/
theorem mode_after_operations :
    ∀ (s : SimState) (m : ℕ) (ty elem : String) (v : ℕ),
    (set_mode m s).1.mode = m
    ∧ (set_mode2_type ty s).mode = s.mode
    ∧ (set_mode2_base elem s).1.mode = s.mode
    ∧ (set_halflife v s).mode = s.mode
    ∧ (start_decay s).mode = s.mode
    ∧ ((1 ≤ (set_mode m s).1.mode ∧ (set_mode m s).1.mode ≤ 6)
        ↔ (1 ≤ m ∧ m ≤ 6)) := by
  intro s m ty elem v
  exact ⟨rfl, rfl, rfl, rfl, rfl, Iff.rfl⟩

/-- Claim C8 (the code bug evaluated): `set_halflife` accepts 0, and the
first decay tick with a zero half-life crashes (the Python
`elapsed / t_half` raises `ZeroDivisionError`, killing the decay thread),
both at tick level and through the outer loop dispatch. -/
theorem decay_tick_halflife_zero_crashes :
    (set_halflife 0 initState).decay_halflife = 0
    ∧ (decayTick 0 0 43 rndZero 0).crashed = true
    ∧ (decay_outer_body 5
        (start_decay (set_halflife 0 { initState with mode := 6 }))
        rndZero).crashed = true := by
  decide

theorem isDecayEv_confCmd (c : ℕ) : isDecayEv (confCmd c) = false := by
  simp only [confCmd, isDecayEv]
  rw [Bool.or_eq_false_iff]
  refine ⟨?_, ?_⟩
  · rw [beq_eq_false_iff_ne]
    intro h
    have hd := congrArg String.data h
    simp only [String.data_append] at hd
    simp at hd
  · rw [beq_eq_false_iff_ne]
    intro h
    have hd := congrArg String.data h
    simp only [String.data_append] at hd
    simp at hd

theorem isAlphaEv_confCmd (c : ℕ) : isAlphaEv (confCmd c) = false := by
  simp only [confCmd, isAlphaEv]
  rw [beq_eq_false_iff_ne]
  intro h
  have hd := congrArg String.data h
  simp only [String.data_append] at hd
  simp at hd

theorem countP_decayEventsAux (rnd : ℕ → ℕ) (k : ℕ) : ∀ ri,
    (decayEventsAux rnd ri k).countP isDecayEv = k := by
  induction k with
  | zero => intro ri; simp [decayEventsAux]
  | succ k ih =>
    intro ri
    by_cases h : 7 < rnd ri
    · simp [decayEventsAux, h, List.countP_append, List.countP_cons, ih,
        isDecayEv]
    · simp [decayEventsAux, h, List.countP_append, List.countP_cons, ih,
        isDecayEv]

theorem countP_alpha_decayEventsAux (rnd : ℕ → ℕ) (k : ℕ) : ∀ ri,
    (decayEventsAux rnd ri k).countP isAlphaEv
      = ((List.range k).filter (fun i => 7 < rnd (ri + i))).length := by
  induction k with
  | zero => intro ri; simp [decayEventsAux]
  | succ k ih =>
    intro ri
    have hshift : (fun i => decide (7 < rnd (ri + Nat.succ i)))
        = (fun i => decide (7 < rnd (ri + 1 + i))) := by
      funext i
      have : ri + Nat.succ i = ri + 1 + i := by omega
      rw [this]
    rw [List.range_succ_eq_map, List.filter_cons, List.filter_map]
    by_cases h : 7 < rnd ri
    · simp only [decayEventsAux, h, if_true, List.cons_append,
        List.nil_append, List.countP_cons, List.countP_append, ih]
      simp [isAlphaEv, h, Function.comp_def, hshift]
    · simp only [decayEventsAux, h, if_false, List.cons_append,
        List.nil_append, List.countP_cons, List.countP_append, ih]
      simp [isAlphaEv, h, Function.comp_def, hshift]

theorem alphaProb_eq_three_elevenths : alphaProb = 3 / 11 := by
  have hc : ((Finset.range 11).filter (fun r => 7 < r)).card = 3 := by decide
  unfold alphaProb
  rw [hc]
  norm_num

/-- Claim C5, counterexample: an emission draw is ALPHA for the 3 values
{8, 9, 10} of the 11 equally likely `randint(0, 10)` outcomes — probability
3/11 ≈ 27.3%, not the claimed fixed 30%. -/
theorem alpha_probability_cex : alphaProb = 3 / 11 ∧ alphaProb ≠ 3 / 10 := by
  rw [alphaProb_eq_three_elevenths]
  norm_num

/-- Claim C5 (amended): in every decay tick (with a nonzero half-life),
exactly `min lost 2` `DECAY:` commands are emitted, the `i`-th being
`DECAY:ALPHA` exactly when its own draw exceeds 7 — an event that holds for
3 of the 11 equally likely draw values, i.e. with probability 3/11 (not
30%) — and `DECAY:BETA` otherwise. -/
theorem decay_tick_event_counts : ∀ (t j c : ℕ) (rnd : ℕ → ℕ) (ri : ℕ),
    t ≠ 0 →
    countDecayCmds (decayTick t j c rnd ri).trace
      = min (c - remExact t (j + 1)) 2
    ∧ countAlphaCmds (decayTick t j c rnd ri).trace
      = ((List.range (min (c - remExact t (j + 1)) 2)).filter
          (fun i => 7 < rnd (ri + i))).length
    ∧ alphaProb = 3 / 11 := by
  intro t j c rnd ri ht
  have htr : (decayTick t j c rnd ri).trace
      = Ev.sleep 50 :: (decayEvents (c - remExact t (j + 1)) rnd ri
          ++ [confCmd (remExact t (j + 1))]) := by
    simp [decayTick, ht]
  have hs1 : isDecayEv (Ev.sleep 50) = false := rfl
  have hs2 : isAlphaEv (Ev.sleep 50) = false := rfl
  refine ⟨?_, ?_, alphaProb_eq_three_elevenths⟩
  · rw [htr]
    simp [countDecayCmds, List.countP_cons, List.countP_append, hs1,
      isDecayEv_confCmd, decayEvents, countP_decayEventsAux]
  · rw [htr]
    simp [countAlphaCmds, List.countP_cons, List.countP_append, hs2,
      isAlphaEv_confCmd, decayEvents, countP_alpha_decayEventsAux]

/-- Witness for C5 at half-life 10, tick 20 (the `remExact 10 20 = 21`
boundary), previous count 23, the all-zeros draw stream. -/
theorem decay_tick_event_counts_witness :
    countDecayCmds (decayTick 10 19 23 rndZero 0).trace
      = min (23 - remExact 10 20) 2
    ∧ countAlphaCmds (decayTick 10 19 23 rndZero 0).trace
      = ((List.range (min (23 - remExact 10 20) 2)).filter
          (fun i => 7 < rndZero (0 + i))).length
    ∧ alphaProb = 3 / 11 :=
  decay_tick_event_counts 10 19 23 rndZero 0 (by decide)

theorem applyUpd_decay_count (u : Option ℕ) (s : SimState) :
    (applyUpd u s).decay_count = s.decay_count := by
  cases u <;> rfl

theorem applyUpd_mode (u : Option ℕ) (s : SimState) :
    (applyUpd u s).mode = s.mode := by
  cases u <;> rfl

theorem applyUpd_decay_running (u : Option ℕ) (s : SimState) :
    (applyUpd u s).decay_running = s.decay_running := by
  cases u <;> rfl

theorem innerRunAux_keeps_flag (t : ℕ) (upd : ℕ → Option ℕ) (rnd : ℕ → ℕ) :
    ∀ (fuel j : ℕ) (s : SimState) (ri : ℕ),
    (innerRunAux t upd rnd fuel j s ri).state.decay_running = s.decay_running
    ∧ (innerRunAux t upd rnd fuel j s ri).state.mode = s.mode := by
  intro fuel
  induction fuel with
  | zero => intro j s ri; exact ⟨rfl, rfl⟩
  | succ fuel ih =>
    intro j s ri
    by_cases hg : 0 < s.decay_count ∧ s.mode = 6 ∧ s.decay_running = true
    · by_cases hc :
        (decayTick t j (applyUpd (upd j) s).decay_count rnd ri).crashed = true
      · refine ⟨?_, ?_⟩
        · show (innerRunAux t upd rnd (fuel + 1) j s ri).state.decay_running
            = s.decay_running
          simp only [innerRunAux, if_pos hg, hc, if_true]
          exact applyUpd_decay_running _ _
        · show (innerRunAux t upd rnd (fuel + 1) j s ri).state.mode = s.mode
          simp only [innerRunAux, if_pos hg, hc, if_true]
          exact applyUpd_mode _ _
      · have ihr := ih (j + 1)
          ({ applyUpd (upd j) s with decay_count :=
              (decayTick t j (applyUpd (upd j) s).decay_count rnd ri).count })
          (ri + (decayTick t j (applyUpd (upd j) s).decay_count rnd ri).drawsUsed)
        refine ⟨?_, ?_⟩
        · show (innerRunAux t upd rnd (fuel + 1) j s ri).state.decay_running
            = s.decay_running
          simp only [innerRunAux, if_pos hg, hc, if_false]
          exact ihr.1.trans (applyUpd_decay_running _ _)
        · show (innerRunAux t upd rnd (fuel + 1) j s ri).state.mode = s.mode
          simp only [innerRunAux, if_pos hg, hc, if_false]
          exact ihr.2.trans (applyUpd_mode _ _)
    · exact ⟨by simp [innerRunAux, hg], by simp [innerRunAux, hg]⟩

/-- Claim C1 (amended): when `decayCount` reaches 0 the tick loop exits,
but `decayRunning` is NOT auto-cleared — the decay loop never writes
`decay_running` (or `mode`), so a finished run leaves the flag true, and
the outer loop then immediately begins a fresh run (resetting
`decay_count` to 43) with no new `startDecay` request; the flag only
clears through operator action such as `set_mode`. -/
theorem decay_run_autorestarts :
    (∀ (t : ℕ) (upd : ℕ → Option ℕ) (rnd : ℕ → ℕ) (fuel j : ℕ)
        (s : SimState) (ri : ℕ),
      (innerRunAux t upd rnd fuel j s ri).state.decay_running
        = s.decay_running
      ∧ (innerRunAux t upd rnd fuel j s ri).state.mode = s.mode)
    ∧ (∀ (fuel : ℕ) (s : SimState) (rnd : ℕ → ℕ),
      s.mode = 6 → s.decay_running = true →
      decay_outer_body fuel s rnd
        = innerRun fuel s.decay_halflife { s with decay_count := 43 } rnd) := by
  constructor
  · intro t upd rnd fuel j s ri
    exact innerRunAux_keeps_flag t upd rnd fuel j s ri
  · intro fuel s rnd h1 h2
    simp [decay_outer_body, h1, h2]

/-- Witness for C1: a concrete state in mode 6 with a live run. -/
theorem decay_run_autorestarts_witness :
    (innerRunAux 1 noUpdate rndZero 5 0 s6 0).state.decay_running
      = s6.decay_running
    ∧ (innerRunAux 1 noUpdate rndZero 5 0 s6 0).state.mode = s6.mode
    ∧ decay_outer_body 3 s6 rndZero
      = innerRun 3 s6.decay_halflife { s6 with decay_count := 43 } rndZero :=
  ⟨(decay_run_autorestarts.1 1 noUpdate rndZero 5 0 s6 0).1,
   (decay_run_autorestarts.1 1 noUpdate rndZero 5 0 s6 0).2,
   decay_run_autorestarts.2 3 s6 rndZero rfl rfl⟩

/-- Claim C1, counterexample: with half-life 1 the run from 43 reaches
`decay_count = 0` within 20 ticks, yet `decay_running` is still `true`
afterwards (not auto-cleared), and feeding the post-run state back to the
outer loop immediately starts a new run (its trajectory is nonempty)
although no fresh `start_decay` was issued. -/
theorem decay_flag_not_autocleared_cex :
    (innerRun 20 1 s6 rndZero).state.decay_count = 0
    ∧ (innerRun 20 1 s6 rndZero).state.decay_running = true
    ∧ (decay_outer_body 20 (innerRun 20 1 s6 rndZero).state rndZero).traj
      ≠ [] := by
  decide

theorem innerRunAux_upd_independent (t : ℕ) (u1 u2 : ℕ → Option ℕ)
    (rnd : ℕ → ℕ) : ∀ (fuel j ri : ℕ) (s1 s2 : SimState),
    s1.decay_count = s2.decay_count → s1.mode = s2.mode →
    s1.decay_running = s2.decay_running →
    (innerRunAux t u1 rnd fuel j s1 ri).trace
      = (innerRunAux t u2 rnd fuel j s2 ri).trace
    ∧ (innerRunAux t u1 rnd fuel j s1 ri).traj
      = (innerRunAux t u2 rnd fuel j s2 ri).traj
    ∧ (innerRunAux t u1 rnd fuel j s1 ri).crashed
      = (innerRunAux t u2 rnd fuel j s2 ri).crashed
    ∧ (innerRunAux t u1 rnd fuel j s1 ri).ri
      = (innerRunAux t u2 rnd fuel j s2 ri).ri
    ∧ (innerRunAux t u1 rnd fuel j s1 ri).state.decay_count
      = (innerRunAux t u2 rnd fuel j s2 ri).state.decay_count := by
  intro fuel
  induction fuel with
  | zero => intro j ri s1 s2 h1 h2 h3; exact ⟨rfl, rfl, rfl, rfl, h1⟩
  | succ fuel ih =>
    intro j ri s1 s2 h1 h2 h3
    by_cases hg : 0 < s1.decay_count ∧ s1.mode = 6 ∧ s1.decay_running = true
    · have hg2 : 0 < s2.decay_count ∧ s2.mode = 6 ∧ s2.decay_running = true := by
        rw [← h1, ← h2, ← h3]; exact hg
      have htk : decayTick t j (applyUpd (u1 j) s1).decay_count rnd ri
          = decayTick t j (applyUpd (u2 j) s2).decay_count rnd ri := by
        rw [applyUpd_decay_count, applyUpd_decay_count, h1]
      simp only [innerRunAux]
      rw [if_pos hg, if_pos hg2, htk]
      by_cases hc :
          (decayTick t j (applyUpd (u2 j) s2).decay_count rnd ri).crashed = true
      · rw [if_pos hc, if_pos hc]
        exact ⟨rfl, rfl, rfl, rfl, by
          show (applyUpd (u1 j) s1).decay_count = (applyUpd (u2 j) s2).decay_count
          rw [applyUpd_decay_count, applyUpd_decay_count, h1]⟩
      · rw [if_neg hc, if_neg hc]
        have ihr := ih (j + 1)
          (ri + (decayTick t j (applyUpd (u2 j) s2).decay_count rnd ri).drawsUsed)
          ({ applyUpd (u1 j) s1 with decay_count :=
              (decayTick t j (applyUpd (u2 j) s2).decay_count rnd ri).count })
          ({ applyUpd (u2 j) s2 with decay_count :=
              (decayTick t j (applyUpd (u2 j) s2).decay_count rnd ri).count })
          rfl
          (by show (applyUpd (u1 j) s1).mode = (applyUpd (u2 j) s2).mode
              rw [applyUpd_mode, applyUpd_mode, h2])
          (by show (applyUpd (u1 j) s1).decay_running
                = (applyUpd (u2 j) s2).decay_running
              rw [applyUpd_decay_running, applyUpd_decay_running, h3])
        refine ⟨?_, ?_, ihr.2.2.1, ihr.2.2.2.1, ihr.2.2.2.2⟩
        · show (decayTick t j (applyUpd (u2 j) s2).decay_count rnd ri).trace ++ _
            = (decayTick t j (applyUpd (u2 j) s2).decay_count rnd ri).trace ++ _
          rw [ihr.1]
        · show (decayTick t j (applyUpd (u2 j) s2).decay_count rnd ri).count :: _
            = (decayTick t j (applyUpd (u2 j) s2).decay_count rnd ri).count :: _
          rw [ihr.2.1]
    · have hg2 : ¬ (0 < s2.decay_count ∧ s2.mode = 6 ∧ s2.decay_running = true) := by
        rw [← h1, ← h2, ← h3]; exact hg
      simp only [innerRunAux]
      rw [if_neg hg, if_neg hg2]
      exact ⟨rfl, rfl, rfl, rfl, h1⟩

/-- Claim C10: the half-life is read exactly once, at run entry — two
executions of the decay run that share the entry state, random stream and
captured half-life but differ in the `set_halflife` updates landing after
the run entered Running produce identical event traces (hence identical
`DECAY:`/`CONF:` command sequences), identical `decay_count` trajectories
and identical final counts; a later half-life takes effect only when a
subsequent run captures it at its own entry. -/
theorem halflife_read_once : ∀ (t : ℕ) (u1 u2 : ℕ → Option ℕ)
    (rnd : ℕ → ℕ) (fuel j ri : ℕ) (s : SimState),
    (innerRunAux t u1 rnd fuel j s ri).trace
      = (innerRunAux t u2 rnd fuel j s ri).trace
    ∧ (innerRunAux t u1 rnd fuel j s ri).traj
      = (innerRunAux t u2 rnd fuel j s ri).traj
    ∧ (innerRunAux t u1 rnd fuel j s ri).state.decay_count
      = (innerRunAux t u2 rnd fuel j s ri).state.decay_count := by
  intro t u1 u2 rnd fuel j ri s
  have h := innerRunAux_upd_independent t u1 u2 rnd fuel j ri s s rfl rfl rfl
  exact ⟨h.1, h.2.1, h.2.2.2.2⟩

theorem gcc_fold_snd (r g b : ℤ) : ∀ (cols : List ColorEntry) (acc : String × ℤ),
    (cols.foldl (gccStep r g b) acc).2
      = cols.foldl (fun d c => min d (distSq r g b c)) acc.2 := by
  intro cols
  induction cols with
  | nil => intro acc; rfl
  | cons c cs ih =>
    intro acc
    rw [List.foldl_cons, List.foldl_cons, ih (gccStep r g b acc c)]
    have hs : (gccStep r g b acc c).2 = min acc.2 (distSq r g b c) := by
      unfold gccStep
      by_cases hlt : distSq r g b c < acc.2
      · rw [if_pos hlt]
        exact (min_eq_right (le_of_lt hlt)).symm
      · rw [if_neg hlt]
        exact (min_eq_left (le_of_not_lt hlt)).symm
    rw [hs]

theorem gcc_fold_spec (r g b : ℤ) : ∀ (cols : List ColorEntry) (acc : String × ℤ),
    (cols.foldl (gccStep r g b) acc = acc
      ∧ ∀ c ∈ cols, acc.2 ≤ distSq r g b c)
    ∨ (∃ i, ∃ h : i < cols.length,
        cols.foldl (gccStep r g b) acc
          = ((cols.get ⟨i, h⟩).name, distSq r g b (cols.get ⟨i, h⟩))
        ∧ distSq r g b (cols.get ⟨i, h⟩) < acc.2
        ∧ (∀ c ∈ cols, distSq r g b (cols.get ⟨i, h⟩) ≤ distSq r g b c)
        ∧ ∀ j, ∀ hj : j < cols.length, j < i →
            distSq r g b (cols.get ⟨i, h⟩)
              < distSq r g b (cols.get ⟨j, hj⟩)) := by
  intro cols
  induction cols with
  | nil =>
    intro acc
    left
    refine ⟨rfl, ?_⟩
    intro c hc
    simp at hc
  | cons c cs ih =>
    intro acc
    rw [List.foldl_cons]
    by_cases hlt : distSq r g b c < acc.2
    · have hstep : gccStep r g b acc c = (c.name, distSq r g b c) := by
        unfold gccStep
        rw [if_pos hlt]
      rw [hstep]
      rcases ih (c.name, distSq r g b c) with
        ⟨hfold, hge⟩ | ⟨i, h, hfold, hlt2, hmin, hfirst⟩
      · right
        refine ⟨0, Nat.succ_pos _, hfold, hlt, ?_, ?_⟩
        · intro x hx
          rcases List.mem_cons.mp hx with hx | hx
          · subst hx
            exact le_refl _
          · exact hge x hx
        · intro j hj hjlt
          exact absurd hjlt (Nat.not_lt_zero j)
      · right
        refine ⟨i + 1, Nat.succ_lt_succ h, hfold, lt_trans hlt2 hlt, ?_, ?_⟩
        · intro x hx
          rcases List.mem_cons.mp hx with hx | hx
          · subst hx
            exact le_of_lt hlt2
          · exact hmin x hx
        · intro j hj hjlt
          cases j with
          | zero => exact hlt2
          | succ j2 =>
            exact hfirst j2 (Nat.lt_of_succ_lt_succ hj)
              (Nat.lt_of_succ_lt_succ hjlt)
    · have hstep : gccStep r g b acc c = acc := by
        unfold gccStep
        rw [if_neg hlt]
      rw [hstep]
      have hge0 : acc.2 ≤ distSq r g b c := le_of_not_lt hlt
      rcases ih acc with
        ⟨hfold, hge⟩ | ⟨i, h, hfold, hlt2, hmin, hfirst⟩
      · left
        refine ⟨hfold, ?_⟩
        intro x hx
        rcases List.mem_cons.mp hx with hx | hx
        · subst hx
          exact hge0
        · exact hge x hx
      · right
        refine ⟨i + 1, Nat.succ_lt_succ h, hfold, hlt2, ?_, ?_⟩
        · intro x hx
          rcases List.mem_cons.mp hx with hx | hx
          · subst hx
            exact le_trans (le_of_lt hlt2) hge0
          · exact hmin x hx
        · intro j hj hjlt
          cases j with
          | zero => exact lt_of_lt_of_le hlt2 hge0
          | succ j2 =>
            exact hfirst j2 (Nat.lt_of_succ_lt_succ hj)
              (Nat.lt_of_succ_lt_succ hjlt)

/-- Claim C6: `get_closest_color` returns the name of the calibration entry
at minimum (squared) Euclidean distance, the first such entry on ties
(every strictly earlier entry has a strictly larger distance than the
minimum); it returns the sentinel "None" whenever the minimum distance
exceeds the threshold (squared distance beyond 14400 = 120²), and an empty
calibration table always yields "None" without error. -/
theorem get_closest_color_spec : ∀ (cols : List ColorEntry) (r g b : ℤ),
    (cols = [] → get_closest_color cols r g b = "None")
    ∧ (minDistSq cols r g b > 14400 → get_closest_color cols r g b = "None")
    ∧ (∀ i, ∀ h : i < cols.length,
        distSq r g b (cols.get ⟨i, h⟩) = minDistSq cols r g b →
        minDistSq cols r g b ≤ 14400 →
        (∀ j, ∀ hj : j < cols.length, j < i →
          distSq r g b (cols.get ⟨j, hj⟩) ≠ minDistSq cols r g b) →
        get_closest_color cols r g b = (cols.get ⟨i, h⟩).name) := by
  intro cols r g b
  have hsnd : (cols.foldl (gccStep r g b) ("None", 10 ^ 10)).2
      = minDistSq cols r g b :=
    gcc_fold_snd r g b cols ("None", 10 ^ 10)
  refine ⟨?_, ?_, ?_⟩
  · intro h
    subst h
    rfl
  · intro h
    show (if (cols.foldl (gccStep r g b) ("None", 10 ^ 10)).2 > 14400
        then "None" else (cols.foldl (gccStep r g b) ("None", 10 ^ 10)).1)
      = "None"
    rw [hsnd, if_pos h]
  · intro i h hd hle hfirst
    show (if (cols.foldl (gccStep r g b) ("None", 10 ^ 10)).2 > 14400
        then "None" else (cols.foldl (gccStep r g b) ("None", 10 ^ 10)).1)
      = (cols.get ⟨i, h⟩).name
    rw [hsnd, if_neg (not_lt.mpr hle)]
    rcases gcc_fold_spec r g b cols ("None", 10 ^ 10) with
      ⟨hfold, hge⟩ | ⟨i2, h2, hfold, hlt2, hmin, hfirst2⟩
    · exfalso
      have h1010 : minDistSq cols r g b = 10 ^ 10 := by
        rw [← hsnd, hfold]
      rw [h1010] at hle
      omega
    · have h22 : distSq r g b (cols.get ⟨i2, h2⟩) = minDistSq cols r g b := by
        rw [← hsnd, hfold]
      have hii : i = i2 := by
        by_contra hne
        rcases Nat.lt_or_ge i i2 with hlti | hgei
        · have hx := hfirst2 i h hlti
          rw [hd, h22] at hx
          exact lt_irrefl _ hx
        · have hlti2 : i2 < i := by omega
          exact hfirst i2 h2 hlti2 h22
      subst hii
      rw [hfold]

/-- Witness for C6 on the spec's literal calibration `[{red, [255,0,0]}]`:
`(250,5,5)` classifies as "red", `(0,0,0)` is out of threshold, and the
empty table yields "None". -/
theorem get_closest_color_spec_witness :
    get_closest_color [] 1 2 3 = "None"
    ∧ get_closest_color [⟨"red", (255, 0, 0)⟩] 250 5 5 = "red"
    ∧ get_closest_color [⟨"red", (255, 0, 0)⟩] 0 0 0 = "None" := by
  refine ⟨(get_closest_color_spec [] 1 2 3).1 rfl, ?_,
    (get_closest_color_spec [⟨"red", (255, 0, 0)⟩] 0 0 0).2.1 (by decide)⟩
  have h := (get_closest_color_spec [⟨"red", (255, 0, 0)⟩] 250 5 5).2.2 0
    (by decide) (by decide) (by decide)
    (fun j hj hjlt => absurd hjlt (Nat.not_lt_zero j))
  exact h
